import Mathlib

/-!
Verification of the hierarchical todo service (todo controller, todo model
schema with its save hooks, and the query layer) against its specification.

The embedding mirrors the JavaScript source:
- the recursive subtask documents (subTodoSchema) become the nested
  inductive type Subtask;
- the todo documents (todoSchema) become the structure Todo;
- mongoose ids are Nat, timestamps are Int (milliseconds);
- each controller is a pure function from a database (List Todo) and the
  request data to an Except result, mirroring the ApiError throws;
- document save runs the two pre-save hooks of the schema: the checklist
  progress recomputation and, when the document is modified and not new,
  the generic activity append (saveHooks below);
- JavaScript truthiness on optional string/number request fields is kept:
  a field guarded by a bare truthiness test is skipped when it is the
  empty string (respectively zero).
Query result ordering (sort clauses) is irrelevant to the membership
properties proved here and is omitted.
-/

/-- Derived checklist aggregate stored on a todo (checklistProgress). -/
structure Progress where
  total : Nat
  completed : Nat
deriving DecidableEq, Repr

/-- A node of the recursive subtask tree (subTodoSchema).  Fields not read
by any modelled operation (reminder, estimated/actual time, tags, assignee,
attachments, comments, isArchived, order) are omitted; the recursive
subtasks list is kept. -/
inductive Subtask where
  | mk (id : Nat) (title : String) (description : String) (status : String)
      (priority : String) (dueDate : Option Int) (completed : Bool)
      (completedAt : Option Int) (subtasks : List Subtask)

/-- Identifier of a subtask node. -/
def Subtask.sid : Subtask → Nat
  | .mk i _ _ _ _ _ _ _ _ => i

/-- Completion flag of a subtask node. -/
def Subtask.done : Subtask → Bool
  | .mk _ _ _ _ _ _ co _ _ => co

/-- Children of a subtask node. -/
def Subtask.children : Subtask → List Subtask
  | .mk _ _ _ _ _ _ _ _ ch => ch

/-- The own (non-recursive) fields of a subtask node, used to state frame
properties about tree updates without dragging the subtree along. -/
structure SubData where
  id : Nat
  title : String
  description : String
  status : String
  priority : String
  dueDate : Option Int
  completed : Bool
  completedAt : Option Int
deriving DecidableEq, Repr

/-- Projection of a subtask node to its own fields. -/
def Subtask.toData : Subtask → SubData
  | .mk i ti de st pr dd co ca _ =>
    { id := i, title := ti, description := de, status := st, priority := pr,
      dueDate := dd, completed := co, completedAt := ca }

/-- One entry of the sharedWith array of a todo. -/
structure ShareEntry where
  userId : Nat
  permissions : String
  sharedAt : Int
deriving DecidableEq, Repr

/-- A value recorded inside an activity-log changes payload
(mongoose Mixed).  Tag lists appear in the tags change of updateTodo. -/
inductive JVal where
  | str (s : String)
  | num (n : Int)
  | nullv
  | tagsv (ts : List String)
deriving DecidableEq, Repr

/-- A changes-payload entry: either an old/new pair (updateTodo) or a plain
value (timeLogged, subtask markers). -/
inductive ChangeVal where
  | oldNew (o n : JVal)
  | plain (v : JVal)
deriving DecidableEq, Repr

/-- One activity-log entry of a todo. -/
structure ActivityEntry where
  action : String
  userId : Nat
  changes : Option (List (String × ChangeVal))
  timestamp : Int
deriving DecidableEq, Repr

/-- A comment on a todo (fields reduced to those the claims mention). -/
structure Comment where
  userId : Nat
  text : String
deriving DecidableEq, Repr

/-- An attachment of a todo (fields reduced to those the claims mention). -/
structure Attachment where
  url : String
  fileName : String
deriving DecidableEq, Repr

/-- A todo document (todoSchema).  Defaults follow the schema defaults. -/
structure Todo where
  id : Nat
  userId : Nat
  title : String
  description : String := ""
  status : String := "todo"
  priority : String := "medium"
  completed : Bool := false
  completedAt : Option Int := none
  dueDate : Option Int := none
  estimatedTime : Int := 0
  actualTime : Int := 0
  category : String := "general"
  tags : List String := []
  assignee : Option Nat := none
  watchers : List Nat := []
  attachments : List Attachment := []
  comments : List Comment := []
  activityLog : List ActivityEntry := []
  subtasks : List Subtask := []
  parentId : Option Nat := none
  checklistProgress : Progress := { total := 0, completed := 0 }
  isPublic : Bool := false
  sharedWith : List ShareEntry := []
  isArchived : Bool := false
  isDeleted : Bool := false
  deletedAt : Option Int := none
  label : Option String := none

mutual

/-- Contribution of one node to the checklist progress of the first
pre-save hook: itself plus its nested subtasks. -/
def calculateProgressOne : Subtask → Progress
  | .mk _ _ _ _ _ _ co _ ch =>
    let p := calculateProgress ch
    { total := 1 + p.total, completed := (if co then 1 else 0) + p.completed }

/-- The checklist-progress recomputation of the first pre-save hook of the
todo schema (calculateProgress): every node counts once toward total, every
node with a true completed flag counts once toward completed, recursing
into the nested subtasks. -/
def calculateProgress : List Subtask → Progress
  | [] => { total := 0, completed := 0 }
  | s :: rest =>
    let a := calculateProgressOne s
    let b := calculateProgress rest
    { total := a.total + b.total, completed := a.completed + b.completed }

end

mutual

/-- One node followed by all nodes below it, in depth-first pre-order. -/
def nodeAndBelow : Subtask → List Subtask
  | .mk i ti de st pr dd co ca ch =>
    .mk i ti de st pr dd co ca ch :: allNodesL ch

/-- All nodes of a subtask tree in depth-first pre-order (each node before
its children, children before later siblings).  This is the spec-side
notion of the set of subtask-tree nodes at all depths. -/
def allNodesL : List Subtask → List Subtask
  | [] => []
  | s :: rest => nodeAndBelow s ++ allNodesL rest

end

/-- The generic updated entry appended by the second pre-save hook,
attributed to the owning user of the document. -/
def hookEntry (u : Nat) (now : Int) : ActivityEntry :=
  { action := "updated", userId := u, changes := none, timestamp := now }

/-- The two pre-save hooks of the todo schema, in registration order:
recompute checklistProgress from the subtask tree, then, when the document
is modified and not newly created, append a generic updated activity entry
attributed to the owning user. -/
def saveHooks (now : Int) (isNew modified : Bool) (t : Todo) : Todo :=
  let t1 := { t with checklistProgress := calculateProgress t.subtasks }
  if modified && !isNew then
    { t1 with activityLog := t1.activityLog ++ [hookEntry t1.userId now] }
  else t1

/-- Todo.create: cast the data and run a save with isNew set, so only the
progress hook fires. -/
def todoCreate (now : Int) (t : Todo) : Todo :=
  saveHooks now true true t

/-- Todo.findById: first document with the given id, soft-deleted or not. -/
def findById (db : List Todo) (i : Nat) : Option Todo :=
  db.find? (fun t => t.id == i)

/-- Persisting a saved document back into the collection. -/
def dbSave (db : List Todo) (t : Todo) : List Todo :=
  db.map (fun u => if u.id == t.id then t else u)

/-- Errors thrown by the controllers (ApiError: HTTP status plus message). -/
structure ApiError where
  status : Nat
  msg : String
deriving DecidableEq, Repr

/-- Request body of PATCH todos/:todoId (updateTodo): absent fields are
none; label distinguishes absent (outer none) from an explicit null. -/
structure TodoPatch where
  title : Option String := none
  description : Option String := none
  status : Option String := none
  priority : Option String := none
  dueDate : Option Int := none
  category : Option String := none
  tags : Option (List String) := none
  label : Option (Option String) := none

/-- Request body of PATCH todos/:todoId/subtasks/:subtaskId. -/
structure SubPatch where
  title : Option String := none
  description : Option String := none
  status : Option String := none
  priority : Option String := none
  dueDate : Option Int := none
  completed : Option Bool := none

/-- Field application of updateSubtask at the located node, mirroring the
guards of the source: title, status and priority are applied when provided
and truthy (non-empty); description and completed when provided at all;
dueDate when provided and truthy (non-zero); setting completed to true
stamps completedAt with the current time, setting it to false leaves
completedAt untouched.  The nested subtasks are never altered. -/
def applySubPatch (now : Int) (p : SubPatch) : Subtask → Subtask
  | .mk i ti de st pr dd co ca ch =>
    let ti2 := match p.title with
      | some s => if s == "" then ti else s
      | none => ti
    let de2 := match p.description with
      | some s => s
      | none => de
    let st2 := match p.status with
      | some s => if s == "" then st else s
      | none => st
    let pr2 := match p.priority with
      | some s => if s == "" then pr else s
      | none => pr
    let dd2 := match p.dueDate with
      | some d => if d == 0 then dd else some d
      | none => dd
    let co2 := match p.completed with
      | some c => c
      | none => co
    let ca2 := match p.completed with
      | some c => if c then some now else ca
      | none => ca
    .mk i ti2 de2 st2 pr2 dd2 co2 ca2 ch

/-- The same field application on the own-fields projection of a node. -/
def applySubPatchData (now : Int) (p : SubPatch) (d : SubData) : SubData :=
  { d with
    title := match p.title with
      | some s => if s == "" then d.title else s
      | none => d.title
    description := match p.description with
      | some s => s
      | none => d.description
    status := match p.status with
      | some s => if s == "" then d.status else s
      | none => d.status
    priority := match p.priority with
      | some s => if s == "" then d.priority else s
      | none => d.priority
    dueDate := match p.dueDate with
      | some x => if x == 0 then d.dueDate else some x
      | none => d.dueDate
    completed := match p.completed with
      | some c => c
      | none => d.completed
    completedAt := match p.completed with
      | some c => if c then some now else d.completedAt
      | none => d.completedAt }

mutual

/-- Descent of findAndUpdateSubtask into the children of one non-matching
node: rewrite the children list when the target sits below, else report
not-found. -/
def fauNode (now : Int) (p : SubPatch) (tid : Nat) : Subtask → Option Subtask
  | .mk i ti de st pr dd co ca ch =>
    match findAndUpdateSubtask now p tid ch with
    | some ch2 => some (.mk i ti de st pr dd co ca ch2)
    | none => none

/-- The recursive helper of updateSubtask (findAndUpdateSubtask): walk the
sibling list; on an id match apply the patch to that node and stop; else
descend into the children, then continue with the remaining siblings.
Returns the rewritten list, or none when no node matches. -/
def findAndUpdateSubtask (now : Int) (p : SubPatch) (tid : Nat) :
    List Subtask → Option (List Subtask)
  | [] => none
  | s :: rest =>
    if s.sid == tid then
      some (applySubPatch now p s :: rest)
    else
      match fauNode now p tid s with
      | some s2 => some (s2 :: rest)
      | none =>
        match findAndUpdateSubtask now p tid rest with
        | some rest2 => some (s :: rest2)
        | none => none

end

/-- JVal rendering of an optional date, as stored in a changes payload. -/
def jdate : Option Int → JVal
  | some d => .num d
  | none => .nullv

/-- JVal rendering of an optional label string. -/
def jlab : Option String → JVal
  | some s => .str s
  | none => .nullv

/-- Accumulated changes payload paired with the document being updated. -/
abbrev ChangesTodo := List (String × ChangeVal) × Todo

/-- updateTodo, title step: applied when provided, truthy and different. -/
def upTitle (p : TodoPatch) (ct : ChangesTodo) : ChangesTodo :=
  match p.title with
  | some s =>
    if s != "" && s != ct.2.title then
      (ct.1 ++ [("title", .oldNew (.str ct.2.title) (.str s))], { ct.2 with title := s })
    else ct
  | none => ct

/-- updateTodo, description step: applied when provided and different. -/
def upDescription (p : TodoPatch) (ct : ChangesTodo) : ChangesTodo :=
  match p.description with
  | some s =>
    if s != ct.2.description then
      (ct.1 ++ [("description", .oldNew (.str ct.2.description) (.str s))],
       { ct.2 with description := s })
    else ct
  | none => ct

/-- updateTodo, status step: applied when provided, truthy and different;
note that the completed flag is not touched. -/
def upStatus (p : TodoPatch) (ct : ChangesTodo) : ChangesTodo :=
  match p.status with
  | some s =>
    if s != "" && s != ct.2.status then
      (ct.1 ++ [("status", .oldNew (.str ct.2.status) (.str s))], { ct.2 with status := s })
    else ct
  | none => ct

/-- updateTodo, priority step. -/
def upPriority (p : TodoPatch) (ct : ChangesTodo) : ChangesTodo :=
  match p.priority with
  | some s =>
    if s != "" && s != ct.2.priority then
      (ct.1 ++ [("priority", .oldNew (.str ct.2.priority) (.str s))],
       { ct.2 with priority := s })
    else ct
  | none => ct

/-- updateTodo, dueDate step: applied when provided and truthy, recording a
change even when the new date equals the stored one (the source does not
compare). -/
def upDueDate (p : TodoPatch) (ct : ChangesTodo) : ChangesTodo :=
  match p.dueDate with
  | some d =>
    if d != 0 then
      (ct.1 ++ [("dueDate", .oldNew (jdate ct.2.dueDate) (.num d))],
       { ct.2 with dueDate := some d })
    else ct
  | none => ct

/-- updateTodo, category step. -/
def upCategory (p : TodoPatch) (ct : ChangesTodo) : ChangesTodo :=
  match p.category with
  | some s =>
    if s != "" && s != ct.2.category then
      (ct.1 ++ [("category", .oldNew (.str ct.2.category) (.str s))],
       { ct.2 with category := s })
    else ct
  | none => ct

/-- updateTodo, tags step: an array is always truthy, so a provided tags
list is always applied and recorded. -/
def upTags (p : TodoPatch) (ct : ChangesTodo) : ChangesTodo :=
  match p.tags with
  | some ts =>
    (ct.1 ++ [("tags", .oldNew (.tagsv ct.2.tags) (.tagsv ts))], { ct.2 with tags := ts })
  | none => ct

/-- updateTodo, label step: applied when provided (null included) and
different. -/
def upLabel (p : TodoPatch) (ct : ChangesTodo) : ChangesTodo :=
  match p.label with
  | some lv =>
    if lv != ct.2.label then
      (ct.1 ++ [("label", .oldNew (jlab ct.2.label) (jlab lv))], { ct.2 with label := lv })
    else ct
  | none => ct

/-- The field loop of updateTodo in source order. -/
def tPatchApply (p : TodoPatch) (todo : Todo) : ChangesTodo :=
  upLabel p (upTags p (upCategory p (upDueDate p (upPriority p (upStatus p
    (upDescription p (upTitle p ([], todo))))))))

/-- PATCH todos/:todoId (updateTodo): resolve the id, reject non-owners,
apply the provided fields, push one updated entry carrying the old/new map
when anything changed, save.  The save is a modification exactly when the
changes map is non-empty, since otherwise no assignment ran. -/
def updateTodo (now : Int) (db : List Todo) (todoId actorId : Nat)
    (p : TodoPatch) : Except ApiError Todo :=
  match findById db todoId with
  | none => .error { status := 404, msg := "Todo not found" }
  | some todo =>
    if todo.userId != actorId then
      .error { status := 403, msg := "Permission denied" }
    else
      let ct := tPatchApply p todo
      let t2 :=
        if ct.1.isEmpty then ct.2
        else
          { ct.2 with activityLog := ct.2.activityLog ++
              [{ action := "updated", userId := actorId, changes := some ct.1,
                 timestamp := now }] }
      .ok (saveHooks now false (!ct.1.isEmpty) t2)

/-- PATCH todos/:todoId/subtasks/:subtaskId (updateSubtask): resolve the
id, reject non-owners, rewrite the tree via findAndUpdateSubtask, reject
with not-found when no node matched, else push the subtask-updated entry
and save. -/
def updateSubtask (now : Int) (db : List Todo) (todoId subtaskId actorId : Nat)
    (p : SubPatch) : Except ApiError (List Todo × Todo) :=
  match findById db todoId with
  | none => .error { status := 404, msg := "Todo not found" }
  | some todo =>
    if todo.userId != actorId then
      .error { status := 403, msg := "Permission denied" }
    else
      match findAndUpdateSubtask now p subtaskId todo.subtasks with
      | none => .error { status := 404, msg := "Subtask not found" }
      | some subs2 =>
        let entry : ActivityEntry :=
          { action := "updated", userId := actorId,
            changes := some [("updated", .plain (.str "subtask"))],
            timestamp := now }
        let t1 := { todo with
                    subtasks := subs2,
                    activityLog := todo.activityLog ++ [entry] }
        let t2 := saveHooks now false true t1
        .ok (dbSave db t2, t2)

/-- PATCH todos/:todoId/complete (completeTodo): resolve, owner-only, run
the complete instance method (completed, status, completedAt set together,
then a save), push a completed activity entry, save again. -/
def completeTodo (now : Int) (db : List Todo) (todoId actorId : Nat) :
    Except ApiError Todo :=
  match findById db todoId with
  | none => .error { status := 404, msg := "Todo not found" }
  | some todo =>
    if todo.userId != actorId then
      .error { status := 403, msg := "Permission denied" }
    else
      let modified1 :=
        !(todo.completed && todo.status == "completed" && todo.completedAt == some now)
      let t1 := saveHooks now false modified1
        { todo with completed := true, status := "completed", completedAt := some now }
      let t2 := { t1 with activityLog := t1.activityLog ++
          [{ action := "completed", userId := actorId, changes := none, timestamp := now }] }
      .ok (saveHooks now false true t2)

/-- PATCH todos/:todoId/incomplete (incompleteTodo): resolve, owner-only,
run the incomplete instance method (completed cleared, status reset to
todo, completedAt cleared, then a save). -/
def incompleteTodo (now : Int) (db : List Todo) (todoId actorId : Nat) :
    Except ApiError Todo :=
  match findById db todoId with
  | none => .error { status := 404, msg := "Todo not found" }
  | some todo =>
    if todo.userId != actorId then
      .error { status := 403, msg := "Permission denied" }
    else
      let modified1 :=
        !(!todo.completed && todo.status == "todo" && todo.completedAt == none)
      .ok (saveHooks now false modified1
        { todo with completed := false, status := "todo", completedAt := none })

/-- POST todos/:todoId/time-tracking (logTimeSpent): the only input guard
on this route is the falsy-or-nonpositive check of the controller; then
resolve, owner-only, add to actualTime, push an updated entry carrying the
delta, save. -/
def logTimeSpent (now : Int) (db : List Todo) (todoId actorId : Nat)
    (timeSpent : Int) : Except ApiError Todo :=
  if timeSpent <= 0 then
    .error { status := 400, msg := "Time spent must be greater than 0" }
  else
    match findById db todoId with
    | none => .error { status := 404, msg := "Todo not found" }
    | some todo =>
      if todo.userId != actorId then
        .error { status := 403, msg := "Permission denied" }
      else
        let entry : ActivityEntry :=
          { action := "updated", userId := actorId,
            changes := some [("timeLogged", .plain (.num timeSpent))],
            timestamp := now }
        .ok (saveHooks now false true
          { todo with
            actualTime := todo.actualTime + timeSpent,
            activityLog := todo.activityLog ++ [entry] })

/-- Permission strings accepted by shareTodo. -/
def validPerm (s : String) : Bool :=
  s == "view" || s == "edit" || s == "admin"

/-- The permission actually used by shareTodo: view when absent. -/
def resolvedPerm (pm : Option String) : String :=
  pm.getD "view"

/-- POST todos/:todoId/share (shareTodo): target id required, permission
string validated, todo resolved, owner-only, duplicate target rejected,
unknown target rejected, else the share entry is appended and saved.  No
guard compares the target against the owner. -/
def shareTodo (now : Int) (db : List Todo) (users : List Nat)
    (todoId actorId : Nat) (target : Option Nat) (pm : Option String) :
    Except ApiError Todo :=
  match target with
  | none => .error { status := 400, msg := "User ID is required" }
  | some tgt =>
    if !validPerm (resolvedPerm pm) then
      .error { status := 400, msg := "Invalid permissions" }
    else
      match findById db todoId with
      | none => .error { status := 404, msg := "Todo not found" }
      | some todo =>
        if todo.userId != actorId then
          .error { status := 403, msg := "Permission denied" }
        else if todo.sharedWith.any (fun s => s.userId == tgt) then
          .error { status := 400, msg := "Todo already shared with this user" }
        else if !users.contains tgt then
          .error { status := 404, msg := "User not found" }
        else
          .ok (saveHooks now false true
            { todo with sharedWith := todo.sharedWith ++
                [{ userId := tgt, permissions := resolvedPerm pm, sharedAt := now }] })

/-- PATCH todos/:todoId/archive (archiveTodo): resolve, owner-only, set the
archive flag and save (no explicit activity entry; the generic hook fires
only when the flag actually changed). -/
def archiveTodo (now : Int) (db : List Todo) (todoId actorId : Nat) :
    Except ApiError Todo :=
  match findById db todoId with
  | none => .error { status := 404, msg := "Todo not found" }
  | some todo =>
    if todo.userId != actorId then
      .error { status := 403, msg := "Permission denied" }
    else
      .ok (saveHooks now false (!todo.isArchived) { todo with isArchived := true })

/-- Todo.softDelete static: findByIdAndUpdate setting isDeleted and
deletedAt directly, bypassing the save hooks (ids are unique in a
collection, so updating every match is the single-document update). -/
def softDelete (now : Int) (db : List Todo) (todoId : Nat) : List Todo :=
  db.map (fun t =>
    if t.id == todoId then { t with isDeleted := true, deletedAt := some now } else t)

/-- DELETE todos/:todoId (deleteTodo): resolve, owner-only, soft delete. -/
def deleteTodo (now : Int) (db : List Todo) (todoId actorId : Nat) :
    Except ApiError (List Todo) :=
  match findById db todoId with
  | none => .error { status := 404, msg := "Todo not found" }
  | some todo =>
    if todo.userId != actorId then
      .error { status := 403, msg := "Permission denied" }
    else
      .ok (softDelete now db todoId)

/-- POST todos/:todoId/duplicate (duplicateTodo): resolve, owner-only, then
Todo.create a copy carrying title plus Copy suffix, description, priority,
category, tags, estimatedTime and a deep copy of the subtask tree (the
JSON round-trip of the source is the identity on the tree value), with a
fresh created activity entry; every other field takes its schema default. -/
def duplicateTodo (now : Int) (newId : Nat) (db : List Todo)
    (todoId actorId : Nat) : Except ApiError (List Todo × Todo) :=
  match findById db todoId with
  | none => .error { status := 404, msg := "Todo not found" }
  | some orig =>
    if orig.userId != actorId then
      .error { status := 403, msg := "Permission denied" }
    else
      let nt := todoCreate now
        { id := newId, userId := actorId, title := orig.title ++ " (Copy)",
          description := orig.description, priority := orig.priority,
          category := orig.category, tags := orig.tags,
          estimatedTime := orig.estimatedTime, subtasks := orig.subtasks,
          activityLog :=
            [{ action := "created", userId := actorId, changes := none,
               timestamp := now }] }
      .ok (db ++ [nt], nt)

/-- An optional query filter: absent matches everything. -/
def matchOpt (o : Option String) (v : String) : Bool :=
  match o with
  | none => true
  | some s => v == s

/-- GET todos (getAllTodos): owner scope, non-deleted, top-level only, with
the optional status/priority/category filters of the query string. -/
def getAllTodos (db : List Todo) (uid : Nat)
    (st pr cat : Option String) : List Todo :=
  db.filter (fun t => t.userId == uid && !t.isDeleted && t.parentId == none &&
    matchOpt st t.status && matchOpt pr t.priority && matchOpt cat t.category)

/-- Todo.findByUserAndStatus static. -/
def findByUserAndStatus (db : List Todo) (uid : Nat) (st : String) : List Todo :=
  db.filter (fun t => t.userId == uid && t.status == st && !t.isDeleted)

/-- Todo.findOverdue static: due strictly before now and not completed. -/
def findOverdue (now : Int) (db : List Todo) (uid : Nat) : List Todo :=
  db.filter (fun t => t.userId == uid &&
    (match t.dueDate with
     | some d => d < now
     | none => false) &&
    !t.completed && !t.isDeleted)

/-- Todo.findByPriority static. -/
def findByPriority (db : List Todo) (uid : Nat) (pr : String) : List Todo :=
  db.filter (fun t => t.userId == uid && t.priority == pr && !t.isDeleted)

/-- GET todos/archived (getArchivedTodos). -/
def getArchivedTodos (db : List Todo) (uid : Nat) : List Todo :=
  db.filter (fun t => t.userId == uid && t.isArchived && !t.isDeleted)

/-- GET todos/today (getTodayTodos): due date within the closed bounds of
the current local day. -/
def getTodayTodos (db : List Todo) (uid : Nat) (dayStart dayEnd : Int) : List Todo :=
  db.filter (fun t => t.userId == uid &&
    (match t.dueDate with
     | some d => dayStart ≤ d && d ≤ dayEnd
     | none => false) &&
    !t.isDeleted)

/-- GET todos/tags/:tag (getTodosByTag): exact tag membership. -/
def getTodosByTag (db : List Todo) (uid : Nat) (tag : String) : List Todo :=
  db.filter (fun t => t.userId == uid && t.tags.contains tag && !t.isDeleted)

/-- Lower-cased character view of a string, for the case-insensitive regex
matches of searchTodos. -/
def lcChars (s : String) : List Char :=
  s.toLower.toList

/-- Whether the needle occurs as a leading segment of the haystack. -/
def matchesAt : List Char → List Char → Bool
  | [], _ => true
  | _ :: _, [] => false
  | a :: as, b :: bs => a == b && matchesAt as bs

/-- Whether the needle occurs anywhere in the haystack. -/
def hasSub (n : List Char) : List Char → Bool
  | [] => n.isEmpty
  | c :: rest => matchesAt n (c :: rest) || hasSub n rest

/-- Case-insensitive substring check, the meaning of the case-insensitive
regex match of searchTodos on a literal query. -/
def strHas (q s : String) : Bool :=
  hasSub (lcChars q) (lcChars s)

/-- GET todos/search/:query (searchTodos): owner scope, non-deleted, and a
case-insensitive match on title, description, or any tag.  The two-char
minimum guard on the query string is orthogonal to the membership
properties proved here. -/
def searchTodos (db : List Todo) (uid : Nat) (q : String) : List Todo :=
  db.filter (fun t => t.userId == uid && !t.isDeleted &&
    (strHas q t.title || strHas q t.description || t.tags.any (strHas q)))

/-- GET todos/all-tags (getAllTags): distinct tag values over the owner's
non-deleted todos. -/
def getAllTags (db : List Todo) (uid : Nat) : List String :=
  (((db.filter (fun t => t.userId == uid && !t.isDeleted)).map Todo.tags).flatten).dedup

/-- One countDocuments call of getTodoStats: todos of one status. -/
def countByStatus (db : List Todo) (uid : Nat) (st : String) : Nat :=
  (db.filter (fun t => t.userId == uid && t.status == st && !t.isDeleted)).length

/-- The urgent-and-incomplete listing of getTodoStats. -/
def urgentTodos (db : List Todo) (uid : Nat) : List Todo :=
  db.filter (fun t => t.userId == uid && t.priority == "urgent" &&
    !t.completed && !t.isDeleted)

/-- A leaf subtask used in concrete instantiations: completed. -/
def demoChild : Subtask :=
  .mk 3 "Leaf" "" "completed" "medium" none true (some 4) []

/-- A two-root, three-node demo tree: node 1 (incomplete) with completed
child 3, and completed node 2. -/
def demoTree : List Subtask :=
  [.mk 1 "A" "" "todo" "medium" none false none [demoChild],
   .mk 2 "B" "" "in-progress" "low" none true (some 7) []]

/-- A baseline demo todo owned by user 1. -/
def demoTodo : Todo :=
  { id := 1, userId := 1, title := "Test todo", subtasks := demoTree,
    checklistProgress := { total := 3, completed := 2 },
    activityLog :=
      [{ action := "created", userId := 1, changes := none, timestamp := 0 }] }

/-- The demo todo shared with user 2 at edit permission. -/
def demoShared : Todo :=
  { demoTodo with sharedWith := [{ userId := 2, permissions := "edit", sharedAt := 0 }] }

/-- The demo todo after a soft delete. -/
def demoDeleted : Todo :=
  { demoTodo with isDeleted := true, deletedAt := some 1 }

/-- An already-completed standalone subtask node. -/
def demoDone : Subtask :=
  .mk 9 "Done" "" "completed" "medium" none true (some 5) []

/-- Extract the success value of a controller call, with a fallback used
only to keep concrete instantiations closed. -/
def okOr (e : Except ApiError Todo) (d : Todo) : Todo :=
  match e with
  | .ok t => t
  | .error _ => d

mutual

theorem calculateProgressOne_spec : (s : Subtask) →
    calculateProgressOne s =
      { total := (nodeAndBelow s).length,
        completed := ((nodeAndBelow s).filter Subtask.done).length }
  | .mk i ti de st pr dd co ca ch => by
    have h := calculateProgress_spec ch
    simp only [calculateProgressOne, nodeAndBelow, h, List.filter_cons,
      List.length_cons, Subtask.done]
    cases co <;> simp <;> omega

theorem calculateProgress_spec : (l : List Subtask) →
    calculateProgress l =
      { total := (allNodesL l).length,
        completed := ((allNodesL l).filter Subtask.done).length }
  | [] => rfl
  | s :: rest => by
    have h1 := calculateProgressOne_spec s
    have h2 := calculateProgress_spec rest
    simp only [calculateProgress, allNodesL, h1, h2, List.filter_append,
      List.length_append]

end

/-- C1: after any save (new or not, modified or not) the stored
checklistProgress counts exactly the subtask-tree nodes at all depths in
its total and exactly the nodes with a true completed flag in its
completed, and the recomputation of the empty tree is zero/zero. -/
theorem checklist_progress_counts_all_nodes :
    ∀ (now : Int) (isNew modified : Bool) (t : Todo),
      (saveHooks now isNew modified t).checklistProgress =
        { total := (allNodesL t.subtasks).length,
          completed := ((allNodesL t.subtasks).filter Subtask.done).length } ∧
      calculateProgress [] = { total := 0, completed := 0 } := by
  intro now isNew modified t
  refine ⟨?_, rfl⟩
  unfold saveHooks
  split <;> simp [calculateProgress_spec]

theorem saveHooks_completed (now : Int) (b m : Bool) (t : Todo) :
    (saveHooks now b m t).completed = t.completed := by
  unfold saveHooks
  split <;> rfl

theorem saveHooks_status (now : Int) (b m : Bool) (t : Todo) :
    (saveHooks now b m t).status = t.status := by
  unfold saveHooks
  split <;> rfl

theorem saveHooks_completedAt (now : Int) (b m : Bool) (t : Todo) :
    (saveHooks now b m t).completedAt = t.completedAt := by
  unfold saveHooks
  split <;> rfl

theorem saveHooks_title (now : Int) (b m : Bool) (t : Todo) :
    (saveHooks now b m t).title = t.title := by
  unfold saveHooks
  split <;> rfl

theorem saveHooks_userId (now : Int) (b m : Bool) (t : Todo) :
    (saveHooks now b m t).userId = t.userId := by
  unfold saveHooks
  split <;> rfl

theorem saveHooks_id (now : Int) (b m : Bool) (t : Todo) :
    (saveHooks now b m t).id = t.id := by
  unfold saveHooks
  split <;> rfl

theorem saveHooks_subtasks (now : Int) (b m : Bool) (t : Todo) :
    (saveHooks now b m t).subtasks = t.subtasks := by
  unfold saveHooks
  split <;> rfl

theorem saveHooks_sharedWith (now : Int) (b m : Bool) (t : Todo) :
    (saveHooks now b m t).sharedWith = t.sharedWith := by
  unfold saveHooks
  split <;> rfl

theorem saveHooks_actualTime (now : Int) (b m : Bool) (t : Todo) :
    (saveHooks now b m t).actualTime = t.actualTime := by
  unfold saveHooks
  split <;> rfl

theorem saveHooks_log_mod (now : Int) (t : Todo) :
    (saveHooks now false true t).activityLog =
      t.activityLog ++ [hookEntry t.userId now] := by
  unfold saveHooks
  rfl

theorem upTitle_keeps (p : TodoPatch) (ct : ChangesTodo) :
    (upTitle p ct).2.completed = ct.2.completed ∧
    (upTitle p ct).2.completedAt = ct.2.completedAt := by
  unfold upTitle
  split
  all_goals try split
  all_goals exact ⟨rfl, rfl⟩

theorem upDescription_keeps (p : TodoPatch) (ct : ChangesTodo) :
    (upDescription p ct).2.completed = ct.2.completed ∧
    (upDescription p ct).2.completedAt = ct.2.completedAt := by
  unfold upDescription
  split
  all_goals try split
  all_goals exact ⟨rfl, rfl⟩

theorem upStatus_keeps (p : TodoPatch) (ct : ChangesTodo) :
    (upStatus p ct).2.completed = ct.2.completed ∧
    (upStatus p ct).2.completedAt = ct.2.completedAt := by
  unfold upStatus
  split
  all_goals try split
  all_goals exact ⟨rfl, rfl⟩

theorem upPriority_keeps (p : TodoPatch) (ct : ChangesTodo) :
    (upPriority p ct).2.completed = ct.2.completed ∧
    (upPriority p ct).2.completedAt = ct.2.completedAt := by
  unfold upPriority
  split
  all_goals try split
  all_goals exact ⟨rfl, rfl⟩

theorem upDueDate_keeps (p : TodoPatch) (ct : ChangesTodo) :
    (upDueDate p ct).2.completed = ct.2.completed ∧
    (upDueDate p ct).2.completedAt = ct.2.completedAt := by
  unfold upDueDate
  split
  all_goals try split
  all_goals exact ⟨rfl, rfl⟩

theorem upCategory_keeps (p : TodoPatch) (ct : ChangesTodo) :
    (upCategory p ct).2.completed = ct.2.completed ∧
    (upCategory p ct).2.completedAt = ct.2.completedAt := by
  unfold upCategory
  split
  all_goals try split
  all_goals exact ⟨rfl, rfl⟩

theorem upTags_keeps (p : TodoPatch) (ct : ChangesTodo) :
    (upTags p ct).2.completed = ct.2.completed ∧
    (upTags p ct).2.completedAt = ct.2.completedAt := by
  unfold upTags
  split
  all_goals exact ⟨rfl, rfl⟩

theorem upLabel_keeps (p : TodoPatch) (ct : ChangesTodo) :
    (upLabel p ct).2.completed = ct.2.completed ∧
    (upLabel p ct).2.completedAt = ct.2.completedAt := by
  unfold upLabel
  split
  all_goals try split
  all_goals exact ⟨rfl, rfl⟩

theorem tPatchApply_keeps (p : TodoPatch) (todo : Todo) :
    (tPatchApply p todo).2.completed = todo.completed ∧
    (tPatchApply p todo).2.completedAt = todo.completedAt := by
  unfold tPatchApply
  obtain ⟨a1, b1⟩ := upTitle_keeps p ([], todo)
  obtain ⟨a2, b2⟩ := upDescription_keeps p (upTitle p ([], todo))
  obtain ⟨a3, b3⟩ := upStatus_keeps p (upDescription p (upTitle p ([], todo)))
  obtain ⟨a4, b4⟩ := upPriority_keeps p (upStatus p (upDescription p (upTitle p ([], todo))))
  obtain ⟨a5, b5⟩ :=
    upDueDate_keeps p (upPriority p (upStatus p (upDescription p (upTitle p ([], todo)))))
  obtain ⟨a6, b6⟩ := upCategory_keeps p
    (upDueDate p (upPriority p (upStatus p (upDescription p (upTitle p ([], todo))))))
  obtain ⟨a7, b7⟩ := upTags_keeps p (upCategory p
    (upDueDate p (upPriority p (upStatus p (upDescription p (upTitle p ([], todo)))))))
  obtain ⟨a8, b8⟩ := upLabel_keeps p (upTags p (upCategory p
    (upDueDate p (upPriority p (upStatus p (upDescription p (upTitle p ([], todo))))))))
  constructor
  · rw [a8, a7, a6, a5, a4, a3, a2, a1]
  · rw [b8, b7, b6, b5, b4, b3, b2, b1]

/-- C2 (amended): the complete and incomplete operations set the completed
flag, the status and completedAt together (true with status completed and a
stamped completedAt, false with status todo and a cleared completedAt), so
the completed/status equivalence holds after them; the update operation
never touches the completed flag or completedAt, so an update that sets
status to completed leaves completed stale rather than synchronized. -/
theorem complete_incomplete_update_sync :
    ∀ (now : Int) (db : List Todo) (i a : Nat) (p : TodoPatch) (todo t2 : Todo),
      (completeTodo now db i a = .ok t2 →
        t2.completed = true ∧ t2.status = "completed" ∧ t2.completedAt = some now ∧
        (t2.completed = true ↔ t2.status = "completed")) ∧
      (incompleteTodo now db i a = .ok t2 →
        t2.completed = false ∧ t2.status = "todo" ∧ t2.completedAt = none ∧
        (t2.completed = true ↔ t2.status = "completed")) ∧
      (findById db i = some todo → updateTodo now db i a p = .ok t2 →
        t2.completed = todo.completed ∧ t2.completedAt = todo.completedAt) := by
  intro now db i a p todo t2
  refine ⟨?_, ?_, ?_⟩
  · intro h
    rcases hf : findById db i with _ | todo0
    · simp only [completeTodo, hf] at h
      exact Except.noConfusion h
    · simp only [completeTodo, hf] at h
      split at h
      · exact Except.noConfusion h
      · simp only [Except.ok.injEq] at h
        subst h
        simp [saveHooks_completed, saveHooks_status, saveHooks_completedAt]
  · intro h
    rcases hf : findById db i with _ | todo0
    · simp only [incompleteTodo, hf] at h
      exact Except.noConfusion h
    · simp only [incompleteTodo, hf] at h
      split at h
      · exact Except.noConfusion h
      · simp only [Except.ok.injEq] at h
        subst h
        simp [saveHooks_completed, saveHooks_status, saveHooks_completedAt]
  · intro hf h
    simp only [updateTodo, hf] at h
    split at h
    · exact Except.noConfusion h
    · simp only [Except.ok.injEq] at h
      subst h
      obtain ⟨hc, hca⟩ := tPatchApply_keeps p todo
      rw [saveHooks_completed, saveHooks_completedAt]
      constructor
      · split <;> exact hc
      · split <;> exact hca

/-- C2 counterexample: on a not-completed todo, an owner update that sets
status to completed yields a saved document with status completed but
completed still false, so the completed/status equivalence is broken by
the update lifecycle operation. -/
theorem update_breaks_completed_sync :
    (updateTodo 5 [demoTodo] 1 1 { status := some "completed" }).toOption.map
      (fun t => (t.completed, t.status)) = some (false, "completed") := rfl

/-- Witness for the amended C2 theorem at concrete inputs. -/
theorem complete_incomplete_update_sync_witness :
    (okOr (completeTodo 5 [demoTodo] 1 1) demoTodo).completed = true ∧
    (okOr (completeTodo 5 [demoTodo] 1 1) demoTodo).status = "completed" ∧
    (okOr (incompleteTodo 6 [demoTodo] 1 1) demoTodo).completedAt = none ∧
    (okOr (updateTodo 7 [demoTodo] 1 1 { status := some "blocked" }) demoTodo).completed =
      demoTodo.completed := by
  have h1 := (complete_incomplete_update_sync 5 [demoTodo] 1 1 {} demoTodo
    (okOr (completeTodo 5 [demoTodo] 1 1) demoTodo)).1 rfl
  have h2 := (complete_incomplete_update_sync 6 [demoTodo] 1 1 {} demoTodo
    (okOr (incompleteTodo 6 [demoTodo] 1 1) demoTodo)).2.1 rfl
  have h3 := (complete_incomplete_update_sync 7 [demoTodo] 1 1
    { status := some "blocked" } demoTodo
    (okOr (updateTodo 7 [demoTodo] 1 1 { status := some "blocked" }) demoTodo)).2.2 rfl rfl
  exact ⟨h1.1, h1.2.1, h2.2.2.1, h3.1⟩

/-- C3 (amended): task update is owner-only; a non-owner actor is rejected
Forbidden whatever entry sharedWith holds for them (view, edit and admin
grantees alike), and when the owner updates the title to a different,
non-empty value the activity log gains the explicit updated entry carrying
the old/new pair for the changed field, followed by the generic updated
entry of the save hook. -/
theorem update_owner_only_logs_changes :
    ∀ (now : Int) (db : List Todo) (i a : Nat) (p : TodoPatch) (todo : Todo)
      (nt : String),
      (findById db i = some todo → todo.userId ≠ a →
        updateTodo now db i a p = .error { status := 403, msg := "Permission denied" }) ∧
      (findById db i = some todo → todo.userId = a → nt ≠ "" → nt ≠ todo.title →
        ∃ t2, updateTodo now db i a { title := some nt } = .ok t2 ∧
          t2.title = nt ∧
          t2.activityLog = todo.activityLog ++
            [{ action := "updated", userId := a,
               changes := some [("title", .oldNew (.str todo.title) (.str nt))],
               timestamp := now },
             hookEntry todo.userId now]) := by
  intro now db i a p todo nt
  constructor
  · intro hf hne
    simp only [updateTodo, hf]
    rw [if_pos (bne_iff_ne.mpr hne)]
  · intro hf ha hne1 hne2
    have hb1 : (nt != "") = true := bne_iff_ne.mpr hne1
    have hb2 : (nt != todo.title) = true := bne_iff_ne.mpr hne2
    simp only [updateTodo, hf]
    rw [if_neg (by simp [ha])]
    have hct : tPatchApply { title := some nt } todo =
        ([("title", .oldNew (.str todo.title) (.str nt))], { todo with title := nt }) := by
      simp only [tPatchApply, upTitle, upDescription, upStatus, upPriority,
        upDueDate, upCategory, upTags, upLabel, hb1, hb2, Bool.and_self, if_true,
        List.nil_append]
    refine ⟨_, rfl, ?_, ?_⟩
    · rw [hct]
      simp [saveHooks_title]
    · rw [hct]
      simp only [List.isEmpty_cons, Bool.not_false, if_false, Bool.ite_eq_true_distrib]
      rw [saveHooks_log_mod]
      simp [List.append_assoc, ha]

/-- C3 counterexample: user 2 holds an edit share entry on the demo task,
yet their title update is rejected Forbidden, where the claim promises
acceptance for edit grantees. -/
theorem edit_share_still_forbidden :
    demoShared.sharedWith = [{ userId := 2, permissions := "edit", sharedAt := 0 }] ∧
    updateTodo 0 [demoShared] 1 2 { title := some "New title" } =
      .error { status := 403, msg := "Permission denied" } := ⟨rfl, rfl⟩

/-- Witness for the amended C3 theorem at concrete inputs. -/
theorem update_owner_only_logs_changes_witness :
    (updateTodo 3 [demoShared] 1 3 { title := some "Other" } =
      .error { status := 403, msg := "Permission denied" }) ∧
    (updateTodo 4 [demoTodo] 1 1 { title := some "Renamed" }).toOption.map
      (fun t => (t.title, t.activityLog.length)) = some ("Renamed", 3) := by
  constructor
  · exact (update_owner_only_logs_changes 3 [demoShared] 1 3
      { title := some "Other" } demoShared "x").1 rfl (by decide)
  · obtain ⟨t2, he, ht, hl⟩ := (update_owner_only_logs_changes 4 [demoTodo] 1 1 {}
      demoTodo "Renamed").2 rfl rfl (by decide) (by decide)
    rw [he]
    show some (t2.title, t2.activityLog.length) = some ("Renamed", 3)
    rw [ht, hl]
    simp [demoTodo]

/-- C4 (amended): every modelled mutation rejects with NotFound when the
task id resolves to no record at all, before any permission check — the
result is the not-found error for every actor, owner or not (for logTime
after its input validation).  Soft-deleted records, however, are still
resolved by findById, so they are not covered by this rejection. -/
theorem missing_id_rejected_before_permission :
    ∀ (now : Int) (nid : Nat) (db : List Todo) (i a sid : Nat) (p : TodoPatch)
      (sp : SubPatch) (m : Int),
      findById db i = none →
        updateTodo now db i a p = .error { status := 404, msg := "Todo not found" } ∧
        completeTodo now db i a = .error { status := 404, msg := "Todo not found" } ∧
        incompleteTodo now db i a = .error { status := 404, msg := "Todo not found" } ∧
        updateSubtask now db i sid a sp =
          .error { status := 404, msg := "Todo not found" } ∧
        archiveTodo now db i a = .error { status := 404, msg := "Todo not found" } ∧
        deleteTodo now db i a = .error { status := 404, msg := "Todo not found" } ∧
        duplicateTodo now nid db i a = .error { status := 404, msg := "Todo not found" } ∧
        (0 < m →
          logTimeSpent now db i a m = .error { status := 404, msg := "Todo not found" }) := by
  intro now nid db i a sid p sp m h
  refine ⟨?_, ?_, ?_, ?_, ?_, ?_, ?_, ?_⟩
  · simp only [updateTodo, h]
  · simp only [completeTodo, h]
  · simp only [incompleteTodo, h]
  · simp only [updateSubtask, h]
  · simp only [archiveTodo, h]
  · simp only [deleteTodo, h]
  · simp only [duplicateTodo, h]
  · intro hm
    simp only [logTimeSpent, h]
    rw [if_neg (by omega)]

/-- C4 counterexample: the demo task is soft deleted, yet an owner update
on its id succeeds instead of rejecting with NotFound, because findById
resolves soft-deleted records. -/
theorem soft_deleted_still_updatable :
    demoDeleted.isDeleted = true ∧
    (updateTodo 2 [demoDeleted] 1 1 { title := some "Renamed" }).isOk = true := ⟨rfl, rfl⟩

/-- Witness for the amended C4 theorem at concrete inputs. -/
theorem missing_id_rejected_before_permission_witness :
    completeTodo 0 [] 5 1 = .error { status := 404, msg := "Todo not found" } ∧
    logTimeSpent 0 [] 5 1 7 = .error { status := 404, msg := "Todo not found" } := by
  have h := missing_id_rejected_before_permission 0 0 [] 5 1 0 {} {} 7 rfl
  exact ⟨h.2.1, h.2.2.2.2.2.2.2 (by decide)⟩

/-- C5 (amended): logTime rejects with a validation error exactly when the
submitted minutes are zero or negative (so minutes zero is rejected); the
1440 upper bound and the integer check of the standalone time-tracking
validator are not mounted on the route, so larger values pass.  An accepted
call adds the minutes to actualTime and appends two updated activity
entries, the explicit one carrying the logged delta and the generic one of
the save hook, so two accepted calls leave four updated entries. -/
theorem logtime_guard_and_effect :
    ∀ (now : Int) (db : List Todo) (i a : Nat) (m : Int) (todo : Todo),
      (m ≤ 0 →
        logTimeSpent now db i a m =
          .error { status := 400, msg := "Time spent must be greater than 0" }) ∧
      (0 < m → findById db i = some todo → todo.userId = a →
        ∃ t2, logTimeSpent now db i a m = .ok t2 ∧
          t2.actualTime = todo.actualTime + m ∧
          t2.activityLog = todo.activityLog ++
            [{ action := "updated", userId := a,
               changes := some [("timeLogged", .plain (.num m))], timestamp := now },
             hookEntry todo.userId now]) := by
  intro now db i a m todo
  constructor
  · intro hm
    simp only [logTimeSpent]
    rw [if_pos hm]
  · intro hm hf ha
    simp only [logTimeSpent, hf]
    rw [if_neg (by omega), if_neg (by simp [ha])]
    refine ⟨_, rfl, ?_, ?_⟩
    · rw [saveHooks_actualTime]
    · rw [saveHooks_log_mod]
      simp [List.append_assoc, ha]

/-- C5 counterexample: minutes 1441 is accepted rather than rejected, and
two accepted calls of 30 then 45 minutes leave actualTime 75 but four
updated activity entries instead of the claimed two. -/
theorem logtime_accepts_1441_and_double_logs :
    (logTimeSpent 0 [demoTodo] 1 1 1441).isOk = true ∧
    ((logTimeSpent 1 [demoTodo] 1 1 30).toOption.bind (fun ta =>
        (logTimeSpent 2 (dbSave [demoTodo] ta) 1 1 45).toOption)).map
      (fun tb => (tb.actualTime,
        (tb.activityLog.filter (fun e => e.action == "updated")).length)) =
      some (75, 4) := ⟨rfl, rfl⟩

/-- Witness for the amended C5 theorem at concrete inputs. -/
theorem logtime_guard_and_effect_witness :
    logTimeSpent 0 [demoTodo] 1 1 0 =
      .error { status := 400, msg := "Time spent must be greater than 0" } ∧
    (logTimeSpent 3 [demoTodo] 1 1 30).toOption.map Todo.actualTime = some 30 := by
  constructor
  · exact (logtime_guard_and_effect 0 [demoTodo] 1 1 0 demoTodo).1 (by decide)
  · obtain ⟨t2, he, hat, _⟩ := (logtime_guard_and_effect 3 [demoTodo] 1 1 30 demoTodo).2
      (by decide) rfl rfl
    rw [he]
    show some t2.actualTime = some 30
    rw [hat]
    rfl

theorem nodeAndBelow_eq (s : Subtask) :
    nodeAndBelow s = s :: allNodesL s.children := by
  cases s
  rfl

theorem applySubPatch_children (now : Int) (p : SubPatch) (s : Subtask) :
    (applySubPatch now p s).children = s.children := by
  cases s
  rfl

theorem applySubPatch_toData (now : Int) (p : SubPatch) (s : Subtask) :
    (applySubPatch now p s).toData = applySubPatchData now p s.toData := by
  cases s
  rfl

theorem toData_id (s : Subtask) : s.toData.id = s.sid := by
  cases s
  rfl

mutual

theorem fauNode_none_iff (now : Int) (p : SubPatch) (tid : Nat) : (s : Subtask) →
    (fauNode now p tid s = none ↔ tid ∉ (allNodesL s.children).map Subtask.sid)
  | .mk i ti de st pr dd co ca ch => by
    have h := fau_none_iff now p tid ch
    cases hr : findAndUpdateSubtask now p tid ch with
    | none =>
      simp only [fauNode, hr, Subtask.children]
      exact ⟨fun _ => h.mp hr, fun _ => trivial⟩
    | some ch2 =>
      simp only [fauNode, hr, Subtask.children]
      constructor
      · intro hn
        exact Option.noConfusion hn
      · intro hmem
        exact absurd (h.mpr hmem) (by simp [hr])

theorem fau_none_iff (now : Int) (p : SubPatch) (tid : Nat) : (l : List Subtask) →
    (findAndUpdateSubtask now p tid l = none ↔
      tid ∉ (allNodesL l).map Subtask.sid)
  | [] => by simp [findAndUpdateSubtask, allNodesL]
  | s :: rest => by
    have h1 := fauNode_none_iff now p tid s
    have h2 := fau_none_iff now p tid rest
    rw [show allNodesL (s :: rest) = nodeAndBelow s ++ allNodesL rest from rfl,
      nodeAndBelow_eq]
    by_cases hid : s.sid = tid
    · simp [findAndUpdateSubtask, hid]
    · cases hn : fauNode now p tid s with
      | some s2 =>
        have hin : tid ∈ (allNodesL s.children).map Subtask.sid := by
          by_contra hout
          exact absurd (h1.mpr hout) (by simp [hn])
        simp [findAndUpdateSubtask, hid, hn, hin,
          show (s.sid == tid) = false by simp [hid]]
      | none =>
        cases hrr : findAndUpdateSubtask now p tid rest with
        | some rest2 =>
          have hin : tid ∈ (allNodesL rest).map Subtask.sid := by
            by_contra hout
            exact absurd (h2.mpr hout) (by simp [hrr])
          simp [findAndUpdateSubtask, hid, hn, hrr, hin,
            show (s.sid == tid) = false by simp [hid]]
        | none =>
          simp [findAndUpdateSubtask, hid, hn, hrr,
            show (s.sid == tid) = false by simp [hid], h1.mp hn, h2.mp hrr,
            Ne.symm hid]

end

theorem mapToData_id (l : List Subtask) :
    (l.map Subtask.toData).map SubData.id = l.map Subtask.sid := by
  induction l with
  | nil => rfl
  | cons s rest ih => simp [toData_id, ih]

theorem allNodesL_cons (s : Subtask) (rest : List Subtask) :
    allNodesL (s :: rest) = (s :: allNodesL s.children) ++ allNodesL rest := by
  rw [show allNodesL (s :: rest) = nodeAndBelow s ++ allNodesL rest from rfl,
    nodeAndBelow_eq]

mutual

theorem fauNode_some_spec (now : Int) (p : SubPatch) (tid : Nat) : (s : Subtask) →
    ∀ s2, fauNode now p tid s = some s2 →
      s2.toData = s.toData ∧
      ∃ pre d post,
        (allNodesL s.children).map Subtask.toData = pre ++ d :: post ∧
        d.id = tid ∧ tid ∉ pre.map SubData.id ∧
        (allNodesL s2.children).map Subtask.toData =
          pre ++ applySubPatchData now p d :: post
  | .mk i ti de st pr dd co ca ch => by
    intro s2 h
    cases hr : findAndUpdateSubtask now p tid ch with
    | none => simp [fauNode, hr] at h
    | some ch2 =>
      simp only [fauNode, hr, Option.some.injEq] at h
      subst h
      obtain ⟨pre, d, post, he, hid, hpre, he2⟩ := fau_some_spec now p tid ch ch2 hr
      exact ⟨rfl, pre, d, post, he, hid, hpre, he2⟩

theorem fau_some_spec (now : Int) (p : SubPatch) (tid : Nat) : (l : List Subtask) →
    ∀ l2, findAndUpdateSubtask now p tid l = some l2 →
      ∃ pre d post,
        (allNodesL l).map Subtask.toData = pre ++ d :: post ∧
        d.id = tid ∧ tid ∉ pre.map SubData.id ∧
        (allNodesL l2).map Subtask.toData = pre ++ applySubPatchData now p d :: post
  | [] => by
    intro l2 h
    simp [findAndUpdateSubtask] at h
  | s :: rest => by
    intro l2 h
    simp only [findAndUpdateSubtask] at h
    split at h
    · -- head match
      rename_i hbeq
      simp only [Option.some.injEq] at h
      subst h
      refine ⟨[], s.toData, (allNodesL s.children).map Subtask.toData ++
        (allNodesL rest).map Subtask.toData, ?_, ?_, by simp, ?_⟩
      · simp [allNodesL_cons]
      · rw [toData_id]
        exact beq_iff_eq.mp hbeq
      · rw [allNodesL_cons (applySubPatch now p s) rest]
        simp [applySubPatch_children, applySubPatch_toData]
    · rename_i hbeq
      cases hn : fauNode now p tid s with
      | some s2 =>
        simp only [hn, Option.some.injEq] at h
        subst h
        obtain ⟨hdata, pre, d, post, he, hid, hpre, he2⟩ :=
          fauNode_some_spec now p tid s s2 hn
        refine ⟨s.toData :: pre, d, post ++ (allNodesL rest).map Subtask.toData,
          ?_, hid, ?_, ?_⟩
        · rw [allNodesL_cons]
          simp [he]
        · simp only [List.map_cons, List.mem_cons, toData_id]
          rintro (hcase | hcase)
          · exact absurd (beq_iff_eq.mpr hcase.symm) (by simp [hbeq])
          · exact hpre hcase
        · rw [allNodesL_cons s2 rest]
          have hch : (allNodesL s2.children).map Subtask.toData =
              pre ++ applySubPatchData now p d :: post := he2
          simp [hch, hdata]
      | none =>
        cases hrr : findAndUpdateSubtask now p tid rest with
        | some rest2 =>
          simp only [hn, hrr, Option.some.injEq] at h
          subst h
          obtain ⟨pre, d, post, he, hid, hpre, he2⟩ :=
            fau_some_spec now p tid rest rest2 hrr
          refine ⟨s.toData :: (allNodesL s.children).map Subtask.toData ++ pre,
            d, post, ?_, hid, ?_, ?_⟩
          · rw [allNodesL_cons]
            simp [he]
          · have hch := (fauNode_none_iff now p tid s).mp hn
            simp only [List.map_append, List.map_cons, List.mem_append,
              List.mem_cons, toData_id, mapToData_id]
            rintro (( hcase | hcase) | hcase)
            · exact absurd (beq_iff_eq.mpr hcase.symm) (by simp [hbeq])
            · exact hch hcase
            · exact hpre hcase
          · rw [allNodesL_cons]
            simp [he2]
        | none =>
          simp only [hn, hrr] at h
          exact Option.noConfusion h

end

/-- C6: subtask update locates the target by depth-first first-match on id:
it reports not-found exactly when no node anywhere in the tree carries the
id, and otherwise rewrites exactly the first pre-order node carrying the id
(the node data sequence of the tree splits as a prefix free of the id, the
matched node, and an unchanged suffix, and only that node's patch is
applied).  The application touches exactly the provided fields (title,
status, priority and dueDate when provided truthy, description and
completed when provided at all), keeps the node id, stamps completedAt with
the current time when completed is set to true, and leaves absent fields
unchanged.  At the controller, a found node yields success with the
rewritten tree saved, and an absent id yields the subtask NotFound
rejection with no saved document. -/
theorem subtask_update_dfs_first_match :
    ∀ (now : Int) (p : SubPatch) (tid : Nat) (l l2 : List Subtask)
      (db : List Todo) (i a : Nat) (todo : Todo) (d : SubData),
      (findAndUpdateSubtask now p tid l = none ↔
        tid ∉ (allNodesL l).map Subtask.sid) ∧
      (findAndUpdateSubtask now p tid l = some l2 →
        ∃ pre nd post,
          (allNodesL l).map Subtask.toData = pre ++ nd :: post ∧
          nd.id = tid ∧ tid ∉ pre.map SubData.id ∧
          (allNodesL l2).map Subtask.toData =
            pre ++ applySubPatchData now p nd :: post) ∧
      ((applySubPatchData now p d).id = d.id ∧
       (p.title = none → (applySubPatchData now p d).title = d.title) ∧
       (∀ v, p.title = some v → v ≠ "" → (applySubPatchData now p d).title = v) ∧
       (p.description = none →
         (applySubPatchData now p d).description = d.description) ∧
       (∀ v, p.description = some v → (applySubPatchData now p d).description = v) ∧
       (p.status = none → (applySubPatchData now p d).status = d.status) ∧
       (∀ v, p.status = some v → v ≠ "" → (applySubPatchData now p d).status = v) ∧
       (p.priority = none → (applySubPatchData now p d).priority = d.priority) ∧
       (∀ v, p.priority = some v → v ≠ "" →
         (applySubPatchData now p d).priority = v) ∧
       (p.dueDate = none → (applySubPatchData now p d).dueDate = d.dueDate) ∧
       (∀ v, p.dueDate = some v → v ≠ 0 →
         (applySubPatchData now p d).dueDate = some v) ∧
       (p.completed = none → (applySubPatchData now p d).completed = d.completed ∧
         (applySubPatchData now p d).completedAt = d.completedAt) ∧
       (∀ b, p.completed = some b → (applySubPatchData now p d).completed = b) ∧
       (p.completed = some true → (applySubPatchData now p d).completedAt = some now)) ∧
      (findById db i = some todo → todo.userId = a →
        findAndUpdateSubtask now p tid todo.subtasks = none →
          updateSubtask now db i tid a p =
            .error { status := 404, msg := "Subtask not found" }) ∧
      (findById db i = some todo → todo.userId = a →
        findAndUpdateSubtask now p tid todo.subtasks = some l2 →
          ∃ t2, updateSubtask now db i tid a p = .ok (dbSave db t2, t2) ∧
            t2.subtasks = l2) := by
  intro now p tid l l2 db i a todo d
  refine ⟨fau_none_iff now p tid l, fau_some_spec now p tid l l2, ?_, ?_, ?_⟩
  · refine ⟨?_, ?_, ?_, ?_, ?_, ?_, ?_, ?_, ?_, ?_, ?_, ?_, ?_, ?_⟩
    · cases hv : p.completed <;> simp [applySubPatchData]
    · intro h
      simp [applySubPatchData, h]
    · intro v h hne
      simp [applySubPatchData, h, beq_eq_false_iff_ne.mpr hne]
    · intro h
      simp [applySubPatchData, h]
    · intro v h
      simp [applySubPatchData, h]
    · intro h
      simp [applySubPatchData, h]
    · intro v h hne
      simp [applySubPatchData, h, beq_eq_false_iff_ne.mpr hne]
    · intro h
      simp [applySubPatchData, h]
    · intro v h hne
      simp [applySubPatchData, h, beq_eq_false_iff_ne.mpr hne]
    · intro h
      simp [applySubPatchData, h]
    · intro v h hne
      simp [applySubPatchData, h, beq_eq_false_iff_ne.mpr hne]
    · intro h
      simp [applySubPatchData, h]
    · intro b h
      simp [applySubPatchData, h]
    · intro h
      simp [applySubPatchData, h]
  · intro hf ha hfau
    simp only [updateSubtask, hf, hfau]
    rw [if_neg (by simp [ha])]
  · intro hf ha hfau
    simp only [updateSubtask, hf, hfau]
    rw [if_neg (by simp [ha])]
    exact ⟨_, rfl, by rw [saveHooks_subtasks]⟩

/-- Witness for the C6 theorem at concrete inputs: the demo tree holds no
node with id 99, so the controller rejects with subtask NotFound, and
setting completed true on the demo child data stamps completedAt. -/
theorem subtask_update_dfs_first_match_witness :
    updateSubtask 0 [demoTodo] 1 99 1 {} =
      .error { status := 404, msg := "Subtask not found" } ∧
    (applySubPatchData 8 { completed := some true } demoChild.toData).completedAt =
      some 8 := by
  have h := subtask_update_dfs_first_match 0 {} 99 demoTree [] [demoTodo] 1 1
    demoTodo demoChild.toData
  refine ⟨h.2.2.2.1 rfl rfl rfl, ?_⟩
  have h2 := subtask_update_dfs_first_match 8 { completed := some true } 99
    demoTree [] [demoTodo] 1 1 demoTodo demoChild.toData
  exact h2.2.2.1.2.2.2.2.2.2.2.2.2.2.2.2.2 rfl

theorem saveHooks_new_log (now : Int) (m : Bool) (t : Todo) :
    (saveHooks now true m t).activityLog = t.activityLog := by
  unfold saveHooks
  simp

theorem saveHooks_comments (now : Int) (b m : Bool) (t : Todo) :
    (saveHooks now b m t).comments = t.comments := by
  unfold saveHooks
  split <;> rfl

theorem saveHooks_attachments (now : Int) (b m : Bool) (t : Todo) :
    (saveHooks now b m t).attachments = t.attachments := by
  unfold saveHooks
  split <;> rfl

theorem findById_append (db l : List Todo) (i : Nat) (t : Todo)
    (h : findById db i = some t) : findById (db ++ l) i = some t := by
  induction db with
  | nil => simp [findById] at h
  | cons u rest ih =>
    simp only [findById, List.cons_append, List.find?] at h ⊢
    cases hu : (u.id == i) with
    | true =>
      simp only [hu] at h ⊢
      exact h
    | false =>
      simp only [hu] at h ⊢
      exact ih h

theorem findById_fresh (db : List Todo) (nt : Todo) (i : Nat)
    (hid : nt.id = i) (h : ∀ u ∈ db, u.id ≠ i) :
    findById (db ++ [nt]) i = some nt := by
  induction db with
  | nil => simp [findById, List.find?, hid]
  | cons u rest ih =>
    have hu : (u.id == i) = false := by
      simp [h u (List.mem_cons_self u rest)]
    simp only [findById, List.cons_append, List.find?, hu]
    exact ih (fun v hv => h v (List.mem_cons_of_mem u hv))

theorem findById_dbSave_ne (db : List Todo) (t2 : Todo) (i : Nat)
    (hne : t2.id ≠ i) : findById (dbSave db t2) i = findById db i := by
  induction db with
  | nil => rfl
  | cons u rest ih =>
    simp only [dbSave, List.map_cons, findById, List.find?]
    by_cases hu : (u.id == t2.id) = true
    · have hui : (u.id == i) = false := by
        have h3 := beq_iff_eq.mp hu
        simp [h3, hne]
      have ht2i : (t2.id == i) = false := by simp [hne]
      rw [if_pos hu]
      simp only [ht2i, hui]
      exact ih
    · rw [if_neg hu]
      cases hui : (u.id == i) with
      | true => simp only [hui]
      | false =>
        simp only [hui]
        exact ih

theorem updateSubtask_ok_shape :
    ∀ (now2 : Int) (dbp : List Todo) (j sid a : Nat) (sp : SubPatch)
      (db2 : List Todo) (t2 t0 : Todo),
      findById dbp j = some t0 →
      updateSubtask now2 dbp j sid a sp = .ok (db2, t2) →
      db2 = dbSave dbp t2 ∧ t2.id = t0.id := by
  intro now2 dbp j sid a sp db2 t2 t0 hf hup
  simp only [updateSubtask, hf] at hup
  split at hup
  · exact Except.noConfusion hup
  · split at hup
    · exact Except.noConfusion hup
    · simp only [Except.ok.injEq, Prod.mk.injEq] at hup
      obtain ⟨h1, h2⟩ := hup
      constructor
      · rw [← h1, ← h2]
      · rw [← h2, saveHooks_id]

/-- C7: duplication by the owner yields a new task whose activity log is
exactly one created entry, whose sharedWith, comments and attachments are
empty, whose subtask tree is structurally identical to the original's and
whose title carries the Copy suffix; and the copy is independently
addressable: a subtask update addressed to the fresh copy leaves the
original task's stored document untouched. -/
theorem duplicate_fresh_copy :
    ∀ (now now2 : Int) (newId : Nat) (db : List Todo) (i a sid : Nat)
      (todo : Todo) (sp : SubPatch) (db2 : List Todo) (t2 : Todo),
      findById db i = some todo → todo.userId = a →
      (∀ u ∈ db, u.id ≠ newId) → newId ≠ i →
      ∃ nt, duplicateTodo now newId db i a = .ok (db ++ [nt], nt) ∧
        nt.activityLog =
          [{ action := "created", userId := a, changes := none, timestamp := now }] ∧
        nt.sharedWith = [] ∧ nt.comments = [] ∧ nt.attachments = [] ∧
        nt.subtasks = todo.subtasks ∧ nt.title = todo.title ++ " (Copy)" ∧
        nt.id = newId ∧ nt.userId = a ∧
        (updateSubtask now2 (db ++ [nt]) newId sid a sp = .ok (db2, t2) →
          findById db2 i = some todo) := by
  intro now now2 newId db i a sid todo sp db2 t2 hf ha hfresh hnei
  simp only [duplicateTodo, hf]
  rw [if_neg (by simp [ha])]
  refine ⟨_, rfl, ?_, ?_, ?_, ?_, ?_, ?_, ?_, ?_, ?_⟩
  · rw [todoCreate, saveHooks_new_log]
  · rw [todoCreate, saveHooks_sharedWith]
  · rw [todoCreate, saveHooks_comments]
  · rw [todoCreate, saveHooks_attachments]
  · rw [todoCreate, saveHooks_subtasks]
  · rw [todoCreate, saveHooks_title]
  · rw [todoCreate, saveHooks_id]
  · rw [todoCreate, saveHooks_userId]
  · intro hup
    have hntid : (todoCreate now
        { id := newId, userId := a, title := todo.title ++ " (Copy)",
          description := todo.description, priority := todo.priority,
          category := todo.category, tags := todo.tags,
          estimatedTime := todo.estimatedTime, subtasks := todo.subtasks,
          activityLog :=
            [{ action := "created", userId := a, changes := none,
               timestamp := now }] }).id = newId := by
      rw [todoCreate, saveHooks_id]
    have hntu : (todoCreate now
        { id := newId, userId := a, title := todo.title ++ " (Copy)",
          description := todo.description, priority := todo.priority,
          category := todo.category, tags := todo.tags,
          estimatedTime := todo.estimatedTime, subtasks := todo.subtasks,
          activityLog :=
            [{ action := "created", userId := a, changes := none,
               timestamp := now }] }).userId = a := by
      rw [todoCreate, saveHooks_userId]
    have hfnt := findById_fresh db _ newId hntid hfresh
    obtain ⟨hdb2, hid2⟩ :=
      updateSubtask_ok_shape now2 (db ++ [_]) newId sid a sp db2 t2 _ hfnt hup
    subst hdb2
    rw [findById_dbSave_ne]
    · exact findById_append db _ i todo hf
    · rw [hid2, hntid]
      exact hnei

/-- Witness for the C7 theorem at concrete inputs. -/
theorem duplicate_fresh_copy_witness :
    (duplicateTodo 0 2 [demoTodo] 1 1).toOption.map
      (fun pr => (pr.2.title, pr.2.sharedWith, pr.2.comments, pr.2.activityLog)) =
      some ("Test todo (Copy)", [], [],
        [{ action := "created", userId := 1, changes := none, timestamp := 0 }]) := by
  obtain ⟨nt, he, hlog, hsw, hcm, hat, hsubs, htitle, hid, hu, hind⟩ :=
    duplicate_fresh_copy 0 0 2 [demoTodo] 1 1 0 demoTodo {} [] demoTodo rfl rfl
      (by intro u hu; rw [List.mem_singleton] at hu; subst hu; decide) (by decide)
  rw [he]
  show some (nt.title, nt.sharedWith, nt.comments, nt.activityLog) = _
  rw [htitle, hsw, hcm, hlog]
  rfl

theorem mem_softDelete_id (now : Int) (db : List Todo) (i : Nat) (t : Todo)
    (ht : t ∈ softDelete now db i) (hid : t.id = i) : t.isDeleted = true := by
  simp only [softDelete, List.mem_map] at ht
  obtain ⟨u, hu, hue⟩ := ht
  by_cases hbe : (u.id == i) = true
  · rw [if_pos hbe] at hue
    rw [← hue]
  · rw [if_neg hbe] at hue
    subst hue
    exact absurd (beq_iff_eq.mpr hid) hbe

/-- C8: soft-deleted tasks are invisible to the whole read layer and are
not physically removed: every result of the listing, search and statistics
queries has a false isDeleted flag, the distinct-tags listing draws only
from non-deleted todos, status counts ignore deleted records, and a soft
delete keeps the collection size and every id while flagging the target,
so immediately after a soft delete no query result carries the deleted
id. -/
theorem soft_deleted_excluded_everywhere :
    ∀ (db : List Todo) (uid : Nat) (now dayS dayE : Int)
      (st pr cat : Option String) (st2 pr2 tag q : String) (i : Nat) (t : Todo),
      (t ∈ getAllTodos db uid st pr cat → t.isDeleted = false) ∧
      (t ∈ findByUserAndStatus db uid st2 → t.isDeleted = false) ∧
      (t ∈ findOverdue now db uid → t.isDeleted = false) ∧
      (t ∈ findByPriority db uid pr2 → t.isDeleted = false) ∧
      (t ∈ getArchivedTodos db uid → t.isDeleted = false) ∧
      (t ∈ getTodayTodos db uid dayS dayE → t.isDeleted = false) ∧
      (t ∈ getTodosByTag db uid tag → t.isDeleted = false) ∧
      (t ∈ searchTodos db uid q → t.isDeleted = false) ∧
      (t ∈ urgentTodos db uid → t.isDeleted = false) ∧
      (∀ tg ∈ getAllTags db uid,
        ∃ u, u ∈ db ∧ u.isDeleted = false ∧ u.userId = uid ∧ tg ∈ u.tags) ∧
      countByStatus db uid st2 =
        countByStatus (db.filter (fun u => !u.isDeleted)) uid st2 ∧
      (softDelete now db i).length = db.length ∧
      (t ∈ softDelete now db i → t.id = i → t.isDeleted = true) ∧
      (t ∈ db → ∃ u, u ∈ softDelete now db i ∧ u.id = t.id) ∧
      (t ∈ getAllTodos (softDelete now db i) uid st pr cat → t.id ≠ i) ∧
      (t ∈ searchTodos (softDelete now db i) uid q → t.id ≠ i) ∧
      (t ∈ findOverdue now (softDelete now db i) uid → t.id ≠ i) := by
  intro db uid now dayS dayE st pr cat st2 pr2 tag q i t
  refine ⟨?_, ?_, ?_, ?_, ?_, ?_, ?_, ?_, ?_, ?_, ?_, ?_, ?_, ?_, ?_, ?_, ?_⟩
  · intro ht
    simp only [getAllTodos, List.mem_filter, Bool.and_eq_true,
      Bool.not_eq_true'] at ht
    tauto
  · intro ht
    simp only [findByUserAndStatus, List.mem_filter, Bool.and_eq_true,
      Bool.not_eq_true'] at ht
    tauto
  · intro ht
    simp only [findOverdue, List.mem_filter, Bool.and_eq_true,
      Bool.not_eq_true'] at ht
    tauto
  · intro ht
    simp only [findByPriority, List.mem_filter, Bool.and_eq_true,
      Bool.not_eq_true'] at ht
    tauto
  · intro ht
    simp only [getArchivedTodos, List.mem_filter, Bool.and_eq_true,
      Bool.not_eq_true'] at ht
    tauto
  · intro ht
    simp only [getTodayTodos, List.mem_filter, Bool.and_eq_true,
      Bool.not_eq_true'] at ht
    tauto
  · intro ht
    simp only [getTodosByTag, List.mem_filter, Bool.and_eq_true,
      Bool.not_eq_true'] at ht
    tauto
  · intro ht
    simp only [searchTodos, List.mem_filter, Bool.and_eq_true,
      Bool.not_eq_true'] at ht
    tauto
  · intro ht
    simp only [urgentTodos, List.mem_filter, Bool.and_eq_true,
      Bool.not_eq_true'] at ht
    tauto
  · intro tg htg
    simp only [getAllTags, List.mem_dedup, List.mem_flatten, List.mem_map,
      List.mem_filter, Bool.and_eq_true, Bool.not_eq_true'] at htg
    obtain ⟨ts, ⟨u, ⟨⟨hu, huid, hdel⟩, hts⟩⟩, htg2⟩ := htg
    exact ⟨u, hu, hdel, beq_iff_eq.mp huid, by rw [hts]; exact htg2⟩
  · simp only [countByStatus, List.filter_filter]
    congr 1
    apply List.filter_congr
    intro u hu
    cases hd : u.isDeleted <;> simp [hd]
  · simp [softDelete]
  · exact fun ht hid => mem_softDelete_id now db i t ht hid
  · intro ht
    refine ⟨(fun v => if v.id == i then
      { v with isDeleted := true, deletedAt := some now } else v) t, ?_, ?_⟩
    · exact List.mem_map_of_mem _ ht
    · by_cases hbe : (t.id == i) = true <;> simp [hbe]
  · intro ht hid
    simp only [getAllTodos, List.mem_filter, Bool.and_eq_true,
      Bool.not_eq_true'] at ht
    have hdel : t.isDeleted = false := by tauto
    have h1 := mem_softDelete_id now db i t ht.1 hid
    rw [hdel] at h1
    exact Bool.noConfusion h1
  · intro ht hid
    simp only [searchTodos, List.mem_filter, Bool.and_eq_true,
      Bool.not_eq_true'] at ht
    have hdel : t.isDeleted = false := by tauto
    have h1 := mem_softDelete_id now db i t ht.1 hid
    rw [hdel] at h1
    exact Bool.noConfusion h1
  · intro ht hid
    simp only [findOverdue, List.mem_filter, Bool.and_eq_true,
      Bool.not_eq_true'] at ht
    have hdel : t.isDeleted = false := by tauto
    have h1 := mem_softDelete_id now db i t ht.1 hid
    rw [hdel] at h1
    exact Bool.noConfusion h1

/-- Witness for the C8 theorem at concrete inputs. -/
theorem soft_deleted_excluded_everywhere_witness :
    demoTodo.isDeleted = false ∧ (softDelete 9 [demoTodo] 1).length = 1 := by
  have h := soft_deleted_excluded_everywhere [demoTodo] 1 9 0 0 none none none
    "todo" "low" "x" "x" 1 demoTodo
  exact ⟨h.1 (List.mem_singleton.mpr rfl), h.2.2.2.2.2.2.2.2.2.2.2.1⟩

/-- C9 (amended): share is owner-initiated and rejects a target that is
already present in sharedWith (Conflict) or unknown among users (NotFound),
defaulting the permission to view; accepted calls append exactly one entry.
No guard compares the target with the owner, so nothing stops sharedWith
from coming to contain the owner id. -/
theorem share_guards_and_append :
    ∀ (now : Int) (db : List Todo) (users : List Nat) (i a tgt : Nat)
      (pm : Option String) (todo : Todo),
      validPerm (resolvedPerm pm) = true →
      findById db i = some todo → todo.userId = a →
      ((todo.sharedWith.any (fun s => s.userId == tgt)) = true →
        shareTodo now db users i a (some tgt) pm =
          .error { status := 400, msg := "Todo already shared with this user" }) ∧
      ((todo.sharedWith.any (fun s => s.userId == tgt)) = false →
        users.contains tgt = false →
        shareTodo now db users i a (some tgt) pm =
          .error { status := 404, msg := "User not found" }) ∧
      ((todo.sharedWith.any (fun s => s.userId == tgt)) = false →
        users.contains tgt = true →
        ∃ t2, shareTodo now db users i a (some tgt) pm = .ok t2 ∧
          t2.sharedWith = todo.sharedWith ++
            [{ userId := tgt, permissions := resolvedPerm pm, sharedAt := now }]) := by
  intro now db users i a tgt pm todo hvp hf ha
  refine ⟨?_, ?_, ?_⟩
  · intro hsh
    simp only [shareTodo, hf]
    rw [if_neg (by simp [hvp]), if_neg (by simp [ha]), if_pos hsh]
  · intro hsh hus
    simp only [shareTodo, hf]
    rw [if_neg (by simp [hvp]), if_neg (by simp [ha]), if_neg (by simp [hsh]),
      if_pos (by simpa using hus)]
  · intro hsh hus
    simp only [shareTodo, hf]
    rw [if_neg (by simp [hvp]), if_neg (by simp [ha]), if_neg (by simp [hsh]),
      if_neg (by simpa using hus)]
    exact ⟨_, rfl, by rw [saveHooks_sharedWith]⟩

/-- C9 counterexample: the owner shares the demo task with themself and the
call succeeds, leaving the owner id inside sharedWith, where the claim
promises rejection and an owner-free sharedWith. -/
theorem share_with_owner_accepted :
    (shareTodo 0 [demoTodo] [1] 1 1 (some 1) none).toOption.map
      (fun t => t.sharedWith.any (fun s => s.userId == t.userId)) = some true := rfl

/-- Witness for the amended C9 theorem at concrete inputs. -/
theorem share_guards_and_append_witness :
    shareTodo 3 [demoShared] [2] 1 1 (some 2) none =
      .error { status := 400, msg := "Todo already shared with this user" } ∧
    shareTodo 3 [demoTodo] [] 1 1 (some 3) none =
      .error { status := 404, msg := "User not found" } ∧
    (shareTodo 4 [demoTodo] [2] 1 1 (some 2) none).toOption.map Todo.sharedWith =
      some [{ userId := 2, permissions := "view", sharedAt := 4 }] := by
  refine ⟨?_, ?_, ?_⟩
  · exact (share_guards_and_append 3 [demoShared] [2] 1 1 2 none demoShared
      rfl rfl rfl).1 rfl
  · exact (share_guards_and_append 3 [demoTodo] [] 1 1 3 none demoTodo
      rfl rfl rfl).2.1 rfl rfl
  · obtain ⟨t2, he, hsw⟩ := (share_guards_and_append 4 [demoTodo] [2] 1 1 2 none
      demoTodo rfl rfl rfl).2.2 rfl rfl
    rw [he]
    show some t2.sharedWith = _
    rw [hsw]
    rfl

/-- C10 (amended): a subtask update that sets completed to false leaves
completedAt untouched (it is never cleared), so completed false with a
non-null completedAt is reachable; completedAt is stamped whenever the
patch sets completed to true, a prior true value notwithstanding, and an
absent completed field leaves both untouched. -/
theorem subpatch_completed_false_keeps_stamp :
    ∀ (now : Int) (p : SubPatch) (s : Subtask),
      (p.completed = some false →
        (applySubPatch now p s).toData.completed = false ∧
        (applySubPatch now p s).toData.completedAt = s.toData.completedAt) ∧
      (p.completed = some true →
        (applySubPatch now p s).toData.completedAt = some now) ∧
      (p.completed = none →
        (applySubPatch now p s).toData.completed = s.toData.completed ∧
        (applySubPatch now p s).toData.completedAt = s.toData.completedAt) := by
  intro now p s
  cases s
  refine ⟨?_, ?_, ?_⟩ <;> intro h <;> simp [applySubPatch, Subtask.toData, h]

/-- C10 counterexample: the demo node is already completed with completedAt
five, yet patching completed true at time nine restamps completedAt to
nine although no transition to true occurred, refuting the stamped only on
transition reading. -/
theorem restamp_without_transition :
    demoDone.toData.completed = true ∧ demoDone.toData.completedAt = some 5 ∧
    (applySubPatch 9 { completed := some true } demoDone).toData.completedAt =
      some 9 := ⟨rfl, rfl, rfl⟩

/-- Witness for the amended C10 theorem at concrete inputs. -/
theorem subpatch_completed_false_keeps_stamp_witness :
    (applySubPatch 9 { completed := some false } demoDone).toData.completed = false ∧
    (applySubPatch 9 { completed := some false } demoDone).toData.completedAt =
      some 5 := by
  have h := (subpatch_completed_false_keeps_stamp 9 { completed := some false }
    demoDone).1 rfl
  exact ⟨h.1, by rw [h.2]; rfl⟩
